import Mathlib

/-!
Verification of the conversational document-edit pipeline of the resumeforge
repository. The definitions below are a shallow embedding of
`frontend/app/api/chat/route.ts` (the `POST` handler: JSON extraction from the
model's raw text, the backslash-repair step, change detection, error
classification) and of the client logic in `frontend/components/chat.tsx`
(`handleSubmit`: applying `modifiedLatex`, error-turn handling).

JavaScript semantics are modelled explicitly: `JSON.parse` as a total fueled
recursive-descent parser over `List Char`, property access on a parse result as
`jsGetField` (accessing a property of `null` throws, of any other non-object
yields `undefined`), truthiness as `jsTruthy`, `String.prototype.trim` as
`jsTrim`, and the two regex `replace` calls as explicit character scans.
`undefined` and JSON `null` are both rendered as an absent/`none` field where
the distinction is unobservable to the client.
-/

namespace ResumeForge

/-- Whitespace recognised by JSON and by the `\s`/`trim` uses we model
(space, tab, newline, carriage return). -/
def isWsChar (c : Char) : Bool := [' ', '\t', '\n', '\r'].contains c

/-- Model of `String.prototype.trim` on the character list. -/
def jsTrimChars (cs : List Char) : List Char :=
  ((cs.dropWhile isWsChar).reverse.dropWhile isWsChar).reverse

/-- Model of `String.prototype.trim`. -/
def jsTrim (s : String) : String := ⟨jsTrimChars s.data⟩

/-- Boolean prefix test on character lists (short-circuiting like `&&`). -/
def isPrefixOfChars : List Char → List Char → Bool
  | [], _ => true
  | _ :: _, [] => false
  | p :: ps, x :: xs => p == x && isPrefixOfChars ps xs

/-- Index of the first occurrence of `pat` as a contiguous sublist, if any
(model of `String.prototype.indexOf` for a pattern). -/
def findSubIdx (pat : List Char) : List Char → Option Nat
  | [] => if isPrefixOfChars pat [] then some 0 else none
  | c :: t =>
    if isPrefixOfChars pat (c :: t) then some 0 else (findSubIdx pat t).map (· + 1)

/-- Model of `String.prototype.includes`. -/
def strContains (s pat : String) : Bool := (findSubIdx pat.data s.data).isSome

/-- Index of the first occurrence of a single character. -/
def firstIdxOf (c : Char) : List Char → Option Nat
  | [] => none
  | x :: xs => if x == c then some 0 else (firstIdxOf c xs).map (· + 1)

/-- Index of the last occurrence of a single character
(model of `String.prototype.lastIndexOf`). -/
def lastIdxOf (c : Char) (cs : List Char) : Option Nat :=
  match firstIdxOf c cs.reverse with
  | none => none
  | some i => some (cs.length - 1 - i)

/-- A parsed JSON value, as produced by `JSON.parse`. Numbers keep their
source lexeme (only zero-ness is ever observed, via truthiness). -/
inductive Json where
  | null : Json
  | bool : Bool → Json
  | num : String → Json
  | str : String → Json
  | arr : List Json → Json
  | obj : List (String × Json) → Json

/-- JSON whitespace skipping. -/
def skipWs (cs : List Char) : List Char := cs.dropWhile isWsChar

/-- Value of a hexadecimal digit (code points 48-57, 97-102, 65-70). -/
def hexDigitVal (c : Char) : Option Nat :=
  let n := c.toNat
  if 48 ≤ n ∧ n ≤ 57 then some (n - 48)
  else if 97 ≤ n ∧ n ≤ 102 then some (n - 87)
  else if 65 ≤ n ∧ n ≤ 70 then some (n - 55)
  else none

/-- Decimal digit test. -/
def isDigitChar (c : Char) : Bool := '0' ≤ c && c ≤ '9'

/-- Parse the body of a JSON string after the opening quote. Follows
`JSON.parse`: the escapes are exactly quote, backslash, slash, `b`, `f`, `n`,
`r`, `t`, `uXXXX`; a raw control character (below U+0020) or any other escape
is a parse error. -/
def parseStringAux : List Char → List Char → Option (String × List Char)
  | [], _ => none
  | c :: cs, acc =>
    if c == '"' then some (⟨acc.reverse⟩, cs)
    else if c == '\\' then
      match cs with
      | [] => none
      | e :: cs2 =>
        if e == '"' then parseStringAux cs2 ('"' :: acc)
        else if e == '\\' then parseStringAux cs2 ('\\' :: acc)
        else if e == '/' then parseStringAux cs2 ('/' :: acc)
        else if e == 'b' then parseStringAux cs2 (Char.ofNat 8 :: acc)
        else if e == 'f' then parseStringAux cs2 (Char.ofNat 12 :: acc)
        else if e == 'n' then parseStringAux cs2 ('\n' :: acc)
        else if e == 'r' then parseStringAux cs2 ('\r' :: acc)
        else if e == 't' then parseStringAux cs2 ('\t' :: acc)
        else if e == 'u' then
          match cs2 with
          | h1 :: h2 :: h3 :: h4 :: cs3 =>
            match hexDigitVal h1, hexDigitVal h2, hexDigitVal h3, hexDigitVal h4 with
            | some a, some b, some c3, some d =>
              parseStringAux cs3 (Char.ofNat (((a * 16 + b) * 16 + c3) * 16 + d) :: acc)
            | _, _, _, _ => none
          | _ => none
        else none
    else if c.toNat < 32 then none
    else parseStringAux cs (c :: acc)

/-- Longest digit run and the remainder. -/
def takeDigits : List Char → List Char × List Char
  | [] => ([], [])
  | c :: cs =>
    if isDigitChar c then
      let (ds, r) := takeDigits cs
      (c :: ds, r)
    else ([], c :: cs)

/-- Parse a JSON number lexeme (`-?(0|[1-9][0-9]*)(\.[0-9]+)?([eE][+-]?[0-9]+)?`),
returning the lexeme and the remainder. -/
def parseNumLex (cs : List Char) : Option (List Char × List Char) :=
  let (sign, cs1) : List Char × List Char :=
    match cs with
    | '-' :: r => (['-'], r)
    | _ => ([], cs)
  match cs1 with
  | [] => none
  | d :: rest =>
    if !isDigitChar d then none
    else
      let (intPart, cs2) : List Char × List Char :=
        if d == '0' then ([d], rest)
        else
          let (ds, r) := takeDigits rest
          (d :: ds, r)
      let (fracPart, cs3) : Option (List Char) × List Char :=
        match cs2 with
        | '.' :: r =>
          match takeDigits r with
          | ([], _) => (none, cs2)
          | (ds, r2) => (some ('.' :: ds), r2)
        | _ => (some [], cs2)
      match fracPart with
      | none => none
      | some fp =>
        let (expPart, cs4) : Option (List Char) × List Char :=
          match cs3 with
          | e :: r =>
            if e == 'e' || e == 'E' then
              let (sgn, r1) : List Char × List Char :=
                match r with
                | s :: r2 => if s == '+' || s == '-' then ([s], r2) else ([], r)
                | [] => ([], r)
              match takeDigits r1 with
              | ([], _) => (none, cs3)
              | (ds, r2) => (some (e :: sgn ++ ds), r2)
            else (some [], cs3)
          | [] => (some [], cs3)
        match expPart with
        | none => none
        | some ep => some (sign ++ intPart ++ fp ++ ep, cs4)

/-- Expect a fixed run of characters. -/
def expectChars (pat : List Char) (cs : List Char) : Option (List Char) :=
  if isPrefixOfChars pat cs then some (cs.drop pat.length) else none

/-- The three intertwined jobs of the recursive-descent parser, fused into one
fueled function so the recursion is structural on the fuel (and therefore
reduces definitionally): parse a value, the members of an object after its
opening brace, or the elements of an array after its opening bracket. -/
inductive ParseTask where
  | value : List Char → ParseTask
  | members : List Char → List (String × Json) → ParseTask
  | elements : List Char → List Json → ParseTask

/-- Fueled recursive-descent JSON parser (model of `JSON.parse`'s grammar).
The fuel only bounds the recursion depth; every recursive step consumes at
least one character first, so `length + 2` fuel at top level never runs out. -/
def parseStep : Nat → ParseTask → Option (Json × List Char)
  | 0, _ => none
  | _ + 1, .value [] => none
  | f + 1, .value (c :: rest) =>
    if c == '\x7b' then
      match skipWs rest with
      | '\x7d' :: r => some (.obj [], r)
      | cs2 => parseStep f (.members cs2 [])
    else if c == '[' then
      match skipWs rest with
      | ']' :: r => some (.arr [], r)
      | cs2 => parseStep f (.elements cs2 [])
    else if c == '"' then
      match parseStringAux rest [] with
      | some (s, r) => some (.str s, r)
      | none => none
    else if c == 't' then
      match expectChars ['r', 'u', 'e'] rest with
      | some r => some (.bool true, r)
      | none => none
    else if c == 'f' then
      match expectChars ['a', 'l', 's', 'e'] rest with
      | some r => some (.bool false, r)
      | none => none
    else if c == 'n' then
      match expectChars ['u', 'l', 'l'] rest with
      | some r => some (.null, r)
      | none => none
    else if c == '-' || isDigitChar c then
      match parseNumLex (c :: rest) with
      | some (lex, r) => some (.num ⟨lex⟩, r)
      | none => none
    else none
  | f + 1, .members cs acc =>
    match cs with
    | '"' :: rest =>
      match parseStringAux rest [] with
      | none => none
      | some (k, r1) =>
        match skipWs r1 with
        | ':' :: r2 =>
          match parseStep f (.value (skipWs r2)) with
          | none => none
          | some (v, r3) =>
            match skipWs r3 with
            | ',' :: r4 => parseStep f (.members (skipWs r4) (acc ++ [(k, v)]))
            | '\x7d' :: r4 => some (.obj (acc ++ [(k, v)]), r4)
            | _ => none
        | _ => none
    | _ => none
  | f + 1, .elements cs acc =>
    match parseStep f (.value cs) with
    | none => none
    | some (v, r1) =>
      match skipWs r1 with
      | ',' :: r2 => parseStep f (.elements (skipWs r2) (acc ++ [v]))
      | ']' :: r2 => some (.arr (acc ++ [v]), r2)
      | _ => none

/-- Parse one JSON value. -/
def parseValue (fuel : Nat) (cs : List Char) : Option (Json × List Char) :=
  parseStep fuel (.value cs)

/-- Model of `JSON.parse`: parse one value and require only whitespace after
it; on any violation the result is `none` (the JS call throws). -/
def jsonParse (s : String) : Option Json :=
  match parseValue (s.data.length + 2) (skipWs s.data) with
  | some (v, rest) =>
    match skipWs rest with
    | [] => some v
    | _ => none
  | none => none

/-- A JSON number lexeme denotes zero iff every mantissa digit is `0`
(sign, decimal point and a zero mantissa keep the value zero; the exponent
cannot change that). Used only for JS truthiness of numbers. -/
def numLexIsZero (lex : String) : Bool :=
  (lex.data.takeWhile (fun c => !(c == 'e' || c == 'E'))).all
    (fun c => c == '0' || c == '-' || c == '.')

/-- JS truthiness of a possibly-absent (`undefined`) parse result:
`undefined`, `null`, `false`, `0` and `""` are falsy; everything else
(including empty arrays and objects) is truthy. -/
def jsTruthy : Option Json → Bool
  | none => false
  | some .null => false
  | some (.bool b) => b
  | some (.num lex) => !numLexIsZero lex
  | some (.str s) => !(s == "")
  | some (.arr _) => true
  | some (.obj _) => true

/-- JS property access on a `JSON.parse` result: reading a property of `null`
throws (`.error`), an object yields the named field (last duplicate wins, as
in `JSON.parse`), and any other value yields `undefined` (`.ok none`). -/
def jsGetField : Json → String → Except Unit (Option Json)
  | .null, _ => .error ()
  | .obj fs, k => .ok ((fs.reverse.find? (fun p => p.1 == k)).map (·.2))
  | _, _ => .ok none

/-- The model's self-reported flag is strictly `=== true`. -/
def selfReportTrue : Option Json → Bool
  | some (.bool true) => true
  | _ => false

/-- The shape of the JSON body returned by the `POST` handler in
`frontend/app/api/chat/route.ts`, together with its HTTP status. A `none`
field models the key being absent or `null` in the body (indistinguishable to
the client). -/
structure RouteResponse where
  status : Nat
  success : Option Bool
  error : Option String
  explanation : Option Json
  modifiedLatex : Option Json
  response : Option Json

/-- The fixed explanation of the final extraction fallback (route.ts line 189). -/
def fallbackExplanation : String :=
  "I couldn\x27t process that request properly. Please try rephrasing."

/-- The extraction fallback response (route.ts lines 186-190): `success: true`,
the raw model text as `response`, the fixed rephrase explanation, and no
`modifiedLatex`. -/
def fallbackResponse (text : String) : RouteResponse :=
  ⟨200, some true, none, some (.str fallbackExplanation), none, some (.str text)⟩

/-- Evaluation of `hasActualChanges` (route.ts lines 124-126):
`parsedResponse.modifiedLatex && parsedResponse.modifiedLatex !== latexContent
&& parsedResponse.modifiedLatex.trim() !== latexContent.trim()`.
A falsy `modifiedLatex` short-circuits to `false`; a truthy string is compared
with strict inequality and then trimmed; a truthy non-string passes the strict
inequality and then throws in `.trim()` (modelled as `.error`). -/
def hasActualChangesE : Option Json → String → Except Unit Bool
  | none, _ => .ok false
  | some .null, _ => .ok false
  | some (.bool false), _ => .ok false
  | some (.bool true), _ => .error ()
  | some (.num lex), _ => if numLexIsZero lex then .ok false else .error ()
  | some (.arr _), _ => .error ()
  | some (.obj _), _ => .error ()
  | some (.str s), latexContent =>
    .ok (!(s == "") && !(s == latexContent) && !(jsTrim s == jsTrim latexContent))

/-- The shared body of route.ts lines 122-143 (and its verbatim copy at lines
153-167): given a successfully parsed response object, if its `explanation` is
truthy build the JSON reply, overriding the self-reported `hasChanges` with the
actual text comparison; a falsy `explanation` falls through (`.ok none`); a
thrown property access or `.trim()` on a non-string propagates (`.error`),
to be caught by the enclosing `catch`. -/
def tryProcessParsed (v : Json) (latexContent : String) :
    Except Unit (Option RouteResponse) :=
  match jsGetField v "explanation" with
  | .error _ => .error ()
  | .ok expl =>
    if jsTruthy expl then
      match jsGetField v "modifiedLatex" with
      | .error _ => .error ()
      | .ok ml =>
        match hasActualChangesE ml latexContent with
        | .error _ => .error ()
        | .ok hasActualChanges =>
          match jsGetField v "hasChanges" with
          | .error _ => .error ()
          | .ok hc =>
            let finalHasChanges := hasActualChanges || selfReportTrue hc
            .ok (some ⟨200, some true, none, expl,
              if finalHasChanges then ml else none, expl⟩)
    else .ok none

/-- The direct whole-text parse fallback (route.ts lines 176-191): parse the
entire cleaned text; on success reply with `explanation` and, when the
self-reported `hasChanges` is truthy, the raw `modifiedLatex`; a parse failure
or a property access throwing (parsed value `null`) yields the fixed fallback. -/
def directStage (cleanedText text : String) : RouteResponse :=
  match jsonParse cleanedText with
  | none => fallbackResponse text
  | some v =>
    match jsGetField v "explanation", jsGetField v "hasChanges",
        jsGetField v "modifiedLatex" with
    | .ok e, .ok hc, .ok ml =>
      ⟨200, some true, none, e, if jsTruthy hc then ml else none, e⟩
    | _, _, _ => fallbackResponse text

/-- Characters the repair regex `/\\(?![\\"'bnrtfu])/g` treats as already
starting a recognised escape sequence. -/
def repairEscClass : List Char := ['\\', '"', '\x27', 'b', 'n', 'r', 't', 'f', 'u']

/-- Model of `jsonString.replace(/\\(?![\\"'bnrtfu])/g, "\\\\")` (route.ts line
149): scanning left to right, a backslash whose next character is outside the
class (or which ends the text) is doubled; the lookahead consumes nothing, so
scanning resumes at the following character either way. -/
def escapeBackslashes : List Char → List Char
  | [] => []
  | c :: rest =>
    if c == '\\' then
      match rest with
      | [] => ['\\', '\\']
      | d :: _ =>
        if repairEscClass.contains d then c :: escapeBackslashes rest
        else '\\' :: '\\' :: escapeBackslashes rest
    else c :: escapeBackslashes rest

/-- String version of the repair replacement. -/
def repairStr (s : String) : String := ⟨escapeBackslashes s.data⟩

/-- Strip the first `/```json\s*/` match (route.ts line 106): remove the first
occurrence of the fence marker and the whitespace run following it. -/
def stripJsonFenceChars : List Char → List Char
  | [] => []
  | c :: rest =>
    if isPrefixOfChars "```json".data (c :: rest) then
      ((c :: rest).drop 7).dropWhile isWsChar
    else c :: stripJsonFenceChars rest

/-- Strip a trailing `/```\s*$/` match (route.ts line 106): if the text ends
with a code-fence marker followed only by whitespace, remove both. -/
def stripTrailingFenceChars (cs : List Char) : List Char :=
  let r := cs.reverse.dropWhile isWsChar
  if isPrefixOfChars "```".data r then (r.drop 3).reverse else cs

/-- `cleanedText` (route.ts lines 103-106): trim, then strip the two fence
markers. -/
def cleanedOf (text : String) : String :=
  ⟨stripTrailingFenceChars (stripJsonFenceChars (jsTrimChars text.data))⟩

/-- `jsonString` (route.ts lines 109-114): the slice from the first `\x7b` to
the last `\x7d` inclusive when both exist in that order, else the empty string. -/
def braceSlice (s : String) : String :=
  match firstIdxOf '\x7b' s.data, lastIdxOf '\x7d' s.data with
  | some i, some j => if i < j then ⟨(s.data.drop i).take (j + 1 - i)⟩ else ""
  | _, _ => ""

/-- The repair stage (route.ts lines 145-171): re-parse the backslash-escaped
slice; a successful parse with truthy explanation replies, anything else
(including a second parse failure or a rethrown `.trim()`, both landing in the
`secondaryError` catch) falls through to the direct whole-text stage. -/
def repairStage (js cleanedText text latexContent : String) : RouteResponse :=
  match jsonParse (repairStr js) with
  | some v =>
    match tryProcessParsed v latexContent with
    | .ok (some r) => r
    | .ok none => directStage cleanedText text
    | .error _ => directStage cleanedText text
  | none => directStage cleanedText text

/-- The structured-output branch of the `POST` handler (route.ts lines
100-200): clean the raw model text, slice between the outermost braces, try
the direct parse, then the backslash repair, then the whole-text parse, then
the fixed fallback. Every input yields a response (the JS `try`/`catch`
ladder never lets an exception escape). -/
def agentHandler (text latexContent : String) : RouteResponse :=
  let ct := cleanedOf text
  let js := braceSlice ct
  if js == "" then directStage ct text
  else
    match jsonParse js with
    | some v =>
      match tryProcessParsed v latexContent with
      | .ok (some r) => r
      | .ok none => directStage ct text
      | .error _ => repairStage js ct text latexContent
    | none => repairStage js ct text latexContent

/-- Classification of a failed model call (route.ts lines 209-231): an `Error`
whose message contains `API_KEY_INVALID` maps to 401, then `QUOTA_EXCEEDED`
to 429, anything else (including a non-`Error` throw, modelled as `none`) to
the generic 500. -/
def classifyGeminiError : Option String → Nat × String
  | none => (500, "Failed to generate response")
  | some m =>
    if strContains m "API_KEY_INVALID" then (401, "Invalid API key")
    else if strContains m "QUOTA_EXCEEDED" then (429, "API quota exceeded")
    else (500, "Failed to generate response")

/-- One turn of the transcript as the client and route see it (`role` plus
text; the `id`/`timestamp` attributes carry no logic and are omitted). -/
structure HistMsg where
  role : String
  content : String

/-- Rendering of one history turn (route.ts line 33):
`` `${msg.role === 'user' ? 'User' : 'Assistant'}: ${msg.content}` ``. -/
def renderTurn (m : HistMsg) : String :=
  (if m.role == "user" then "User" else "Assistant") ++ ": " ++ m.content

/-- `conversationContext` (route.ts lines 29-35): when a history array is
present, render the last 10 turns (`slice(-10)`) joined by newlines; JS
`slice(-10)` keeps the final `min(10, length)` elements, i.e. `drop (length -
10)` with truncated subtraction. -/
def conversationContext : Option (List HistMsg) → String
  | none => ""
  | some l => String.intercalate "\n" ((l.drop (l.length - 10)).map renderTurn)

/-- The guard deciding the structured branch (route.ts lines 39 and 100):
`mode === "agent" && latexContent` (truthy). -/
def usesAgentPipeline (mode latexContent : String) : Bool :=
  mode == "agent" && !(latexContent == "")

/-- The part of the agent-mode template (route.ts lines 41-49) before the
conversation-context hole. -/
def agentPromptPrefix (latexContent message : String) : String :=
  "You are a LaTeX code assistant that helps users modify their resume code based on natural language instructions.\n\nCURRENT LATEX CODE:\n```latex\n"
    ++ latexContent ++ "\n```\n\nUSER INSTRUCTION: " ++ message ++ "\n\n"

/-- The part of the agent-mode template (route.ts lines 51-85) after the
conversation-context hole. -/
def agentPromptSuffix : String :=
  "\n\nCRITICAL REQUIREMENTS:\n1. You MUST actually modify the LaTeX code based on the user\x27s request\n2. You MUST respond with ONLY a valid JSON object in this EXACT format\n3. Do NOT include any explanatory text before or after the JSON\n4. Do NOT just explain what you would do - actually DO the modifications\n5. ALWAYS include the complete modified LaTeX in the \"modifiedLatex\" field\n\nREQUIRED JSON FORMAT:\n\x7b\n  \"explanation\": \"Brief explanation of what you changed\",\n  \"modifiedLatex\": \"The complete modified LaTeX code with actual changes applied\",\n  \"hasChanges\": true\n\x7d\n\nIMPORTANT: When you make ANY change (even small ones like changing a name), you MUST:\n- Set \"hasChanges\": true\n- Include the COMPLETE modified LaTeX code in \"modifiedLatex\"\n- Do NOT set \"hasChanges\": false unless you truly cannot fulfill the request\n\nEXAMPLES:\n- If user says \"make the font bigger\", actually change \\fontsize or add \\large commands\n- If user says \"add a phone number\", actually insert the phone number in the contact section\n- If user says \"change the color to blue\", actually modify color commands like \\textcolor\x7bblue\x7d\n- If user says \"remove education section\", actually delete those lines from the code\n\nSTRICT GUIDELINES:\n- ALWAYS make the actual requested changes to the LaTeX code\n- Set hasChanges to true when you make modifications\n- Set hasChanges to false ONLY if the request cannot be fulfilled or no changes are truly needed\n- Return the COMPLETE modified LaTeX document, not just snippets\n- Ensure all LaTeX syntax remains valid after modifications\n- Keep explanations brief but specific about what was actually changed\n\nYOU MUST RESPOND WITH ONLY THE JSON OBJECT - NO OTHER TEXT:"

/-- The agent-mode prompt (route.ts lines 41-85): current document, user
instruction, the rendered recent conversation when non-empty, then the
structured-output contract. -/
def agentPrompt (latexContent message ctx : String) : String :=
  agentPromptPrefix latexContent message ++
    (if ctx == "" then "" else "PREVIOUS CONVERSATION:\n" ++ ctx ++ "\n") ++
    agentPromptSuffix

/-- The conversational prompt (route.ts lines 88-92). -/
def askPrompt (message ctx : String) : String :=
  "You are an AI assistant specialized in helping with LaTeX resume writing, formatting, and career advice. You should be helpful, professional, and provide practical guidance.\n\n"
    ++ (if ctx == "" then "" else "Previous conversation:\n" ++ ctx ++ "\n\n")
    ++ "Current user message: " ++ message
    ++ "\n\nPlease provide a helpful response:"

/-- The prompt the handler sends for a validated request (route.ts lines
37-93): the structured template exactly when the agent-pipeline guard holds. -/
def buildPrompt (mode latexContent message : String)
    (hist : Option (List HistMsg)) : String :=
  if usesAgentPipeline mode latexContent then
    agentPrompt latexContent message (conversationContext hist)
  else askPrompt message (conversationContext hist)

/-- The request body fields the handler destructures. `message = none` models
an absent or non-string value (both fail the `typeof` guard); an empty string
is falsy and also fails the guard. -/
structure ChatRequest where
  message : Option String
  conversationHistory : Option (List HistMsg)
  latexContent : String
  mode : String

/-- The whole `POST` handler: input validation (400), API-key check (500),
then — with the model call's outcome supplied as an oracle (`.ok` raw text or
`.error` with the thrown message) — either the error classifier or one of the
two response branches. -/
def post (req : ChatRequest) (apiKeyConfigured : Bool)
    (modelOutcome : Except (Option String) String) : RouteResponse :=
  match req.message with
  | none => ⟨400, none, some "Message is required and must be a string", none, none, none⟩
  | some m =>
    if m == "" then
      ⟨400, none, some "Message is required and must be a string", none, none, none⟩
    else if !apiKeyConfigured then
      ⟨500, none, some "Gemini API key is not configured", none, none, none⟩
    else
      match modelOutcome with
      | .error e =>
        let c := classifyGeminiError e
        ⟨c.1, none, some c.2, none, none, none⟩
      | .ok text =>
        if usesAgentPipeline req.mode req.latexContent then
          agentHandler text req.latexContent
        else ⟨200, some true, none, none, none, some (.str text)⟩

/-- Modelled from the spec: the Completeness Validator. Its implementation
(`_extract_latex_from_response` in `code-agent/agent.py`, described by the
repository's bug-fix note) is not among the provided frontend sources; per the
spec a candidate is complete iff it contains a document-class declaration, a
document-body start marker and a document-body end marker, with the end marker
after the start marker. -/
def isComplete (s : String) : Bool :=
  (findSubIdx "\\documentclass".data s.data).isSome &&
  match findSubIdx "\\begin\x7bdocument\x7d".data s.data,
      findSubIdx "\\end\x7bdocument\x7d".data s.data with
  | some i, some j => decide (i < j)
  | _, _ => false

/-- The two modes the chat UI can be in (`chat.tsx` line 21:
`useState<"ask" | "edit">("ask")`); the request's `mode` field is always one
of these two strings. -/
inductive UiMode where
  | ask : UiMode
  | edit : UiMode

/-- The string the UI sends for each mode. -/
def UiMode.str : UiMode → String
  | .ask => "ask"
  | .edit => "edit"

/-- `isEditFlow` (chat.tsx lines 110-111): `(response.data.mode || mode) ===
"edit" || mode === "edit"`. The route never returns a `mode` field, so
`response.data.mode` is `undefined` and the whole test reduces to the local
mode being `"edit"`. -/
def clientIsEditFlow (mode : String) : Bool := mode == "edit"

/-- JS strict inequality `response.data.modifiedLatex !== latexContent`:
false only when the field is a string equal to the current content. -/
def mlStrictNeq (ml : Option Json) (latexContent : String) : Bool :=
  match ml with
  | some (.str t) => !(t == latexContent)
  | _ => true

/-- The client's first apply condition (chat.tsx lines 113-118): edit flow,
truthy `success`, truthy `modifiedLatex`, and strict inequality with the
current content. -/
def clientApplies (mode : String) (r : RouteResponse) (latexContent : String) : Bool :=
  clientIsEditFlow mode && (match r.success with | some b => b | none => false) &&
    jsTruthy r.modifiedLatex && mlStrictNeq r.modifiedLatex latexContent

/-- The client's second branch guard (chat.tsx line 126):
`response.data.modifiedLatex && !response.data.success` — update without
compiling when a truthy document arrives on a non-success body. -/
def clientSecondBranch (r : RouteResponse) : Bool :=
  jsTruthy r.modifiedLatex && !(match r.success with | some b => b | none => false)

/-- The editor content delivered to `onLatexUpdate`: the string payload. The
route only ever places strings (or nothing) in `modifiedLatex` on the paths
modelled here; a non-string payload is returned unchanged. -/
def mlAsString (ml : Option Json) (old : String) : String :=
  match ml with
  | some (.str s) => s
  | _ => old

/-- The editor content after the client processes a 200 response (chat.tsx
lines 113-132): apply on either branch, otherwise keep the old content. -/
def clientLatexAfter (mode : String) (r : RouteResponse) (latexContent : String) : String :=
  if clientApplies mode r latexContent then mlAsString r.modifiedLatex latexContent
  else if clientSecondBranch r then mlAsString r.modifiedLatex latexContent
  else latexContent

/-- The error message the client shows for a failed request (chat.tsx lines
152-162): 401 and 429 have fixed texts, otherwise a truthy `error` field from
the body, otherwise the generic apology. -/
def clientErrorMessage (status : Nat) (dataError : Option String) : String :=
  if status == 401 then "API authentication failed. Please check the configuration."
  else if status == 429 then "API rate limit exceeded. Please try again later."
  else
    match dataError with
    | some e => if e == "" then "Sorry, I\x27m having trouble responding right now." else e
    | none => "Sorry, I\x27m having trouble responding right now."

/-- The client state touched by an error (chat.tsx lines 148-173): the
transcript gains the user turn and one assistant turn carrying the error
message; the editor content is untouched (no `onLatexUpdate` on this path). -/
def clientCatch (status : Nat) (dataError : Option String) (messages : List HistMsg)
    (userContent latexContent : String) : List HistMsg × String :=
  (messages ++ [⟨"user", userContent⟩,
    ⟨"assistant", clientErrorMessage status dataError⟩], latexContent)

/-- The self-reported `hasChanges === true` test read off a parsed record. -/
def selfFlagTrue (v : Json) : Bool :=
  match jsGetField v "hasChanges" with
  | .ok hc => selfReportTrue hc
  | .error _ => false

/-- First-success composition of the two slice parse attempts (step 2 and the
step-3 repair): the record the extractor works from when either brace-slice
parse succeeds. -/
def sliceRecover (js : String) : Option Json :=
  match jsonParse js with
  | some v => some v
  | none => jsonParse (repairStr js)

/-- A complete document used as the current content in concrete runs. -/
def sampleDoc : String :=
  "\\documentclass\x7barticle\x7d\n\\begin\x7bdocument\x7d\nHello\n\\end\x7bdocument\x7d"

/-- A second complete document, differing from `sampleDoc`. -/
def sampleDoc2 : String :=
  "\\documentclass\x7barticle\x7d\n\\begin\x7bdocument\x7d\nWorld\n\\end\x7bdocument\x7d"

/-- A body fragment: no document-class anchor, no body markers. -/
def sampleFragment : String := "\\section\x7bSkills\x7d Python"

/-- Raw model text for the fragment scenario: syntactically valid structured
output reporting `hasChanges: true` whose `modifiedLatex` is only the fragment. -/
def fragmentRaw : String :=
  "\x7b\"explanation\":\"Added skills\",\"modifiedLatex\":\"\\\\section\x7bSkills\x7d Python\",\"hasChanges\":true\x7d"

/-- Raw model text with no `explanation` field, `hasChanges: false`, and a
complete `modifiedLatex` equal to `sampleDoc2`. -/
def noExplanationRaw : String :=
  "\x7b\"hasChanges\":false,\"modifiedLatex\":\"\\\\documentclass\x7barticle\x7d\\n\\\\begin\x7bdocument\x7d\\nWorld\\n\\\\end\x7bdocument\x7d\"\x7d"

/-- Raw model text whose `modifiedLatex` (`"x\n"`) differs from the current
document `"x"` only by trailing whitespace, with `hasChanges: true`. -/
def trimEqualRaw : String :=
  "\x7b\"explanation\":\"styled\",\"modifiedLatex\":\"x\\n\",\"hasChanges\":true\x7d"

/-- Raw model text whose only flaw is an unescaped backslash immediately
before the closing quote of a string value (the intended explanation is
`x` followed by one backslash). -/
def trailingBackslashRaw : String := "\x7b\"explanation\":\"x\\\"\x7d"

/-- The same record with the stray backslash removed: direct parsing succeeds,
showing `trailingBackslashRaw` is one backslash away from a valid record. -/
def trailingBackslashFixed : String := "\x7b\"explanation\":\"x\"\x7d"

/-- Raw model text whose `explanation` value contains the unescaped backslash
sequence `\d` (as in a LaTeX command), which fails direct parsing but is
recovered by the repair. -/
def repairableRaw : String := "\x7b\"explanation\":\"a\\d\"\x7d"

/-- A plain-prose model reply with no structure at all. -/
def proseRaw : String := "I cannot help with that."

/-- A valid structured no-op payload: explanation, `hasChanges: false`, no
document field. -/
def noopRaw : String :=
  "\x7b\"explanation\":\"All good, nothing to change\",\"hasChanges\":false\x7d"

/-- The parsed form of `noopRaw`. -/
def noopJson : Json :=
  .obj [("explanation", .str "All good, nothing to change"), ("hasChanges", .bool false)]

/-- Raw model text for the self-report-override scenario: a complete document
differing from `sampleDoc`, with `hasChanges: false` and an explanation. -/
def overrideRaw : String :=
  "\x7b\"explanation\":\"rewrote body\",\"hasChanges\":false,\"modifiedLatex\":\"\\\\documentclass\x7barticle\x7d\\n\\\\begin\x7bdocument\x7d\\nWorld\\n\\\\end\x7bdocument\x7d\"\x7d"

/-- The parsed form of `overrideRaw`. -/
def overrideJson : Json :=
  .obj [("explanation", .str "rewrote body"), ("hasChanges", .bool false),
    ("modifiedLatex", .str sampleDoc2)]

/-- Raw model text that is trim-identical to the current document `"x"` and
self-reports `hasChanges: false`. -/
def trimEqualFlagFalseRaw : String :=
  "\x7b\"explanation\":\"styled\",\"modifiedLatex\":\"x\\n\",\"hasChanges\":false\x7d"

/-- The parsed form of `trimEqualFlagFalseRaw`. -/
def trimEqualFlagFalseJson : Json :=
  .obj [("explanation", .str "styled"), ("modifiedLatex", .str "x\n"),
    ("hasChanges", .bool false)]

/-- An ordinary string-value character: not a quote, backslash, control
character or backtick. Such a character parses as itself inside a JSON
string, is untouched by the repair scan, and cannot contribute to a fence
marker. -/
def plainValueChar (c : Char) : Bool :=
  !(c == '"') && !(c == '\\') && !(c.toNat < 32) && !(c == '\x60')

/-- The single-stray-backslash payload family used to characterise the
repair: `\x7b"explanation":"<pre>\<c><post>"\x7d` — a structured-template
payload whose string value is ordinary text except for one unescaped
backslash before `c`. -/
def strayPayloadGen (pre : List Char) (c : Char) (post : List Char) : String :=
  ⟨'\x7b' :: '"' :: 'e' :: 'x' :: 'p' :: 'l' :: 'a' :: 'n' :: 'a' :: 't' :: 'i' :: 'o' :: 'n'
    :: '"' :: ':' :: '"' :: (pre ++ ('\\' :: c :: (post ++ ['"', '\x7d'])))⟩

/-- Raw model text whose sole flaw is the stray `\x`, but whose value also
contains a correctly escaped backslash pair before `s`: the repair doubles
the second backslash of that pair, so the payload stays unparseable. -/
def mixedEscapeRaw : String := "\x7b\"explanation\":\"a\\\\s b\\x\"\x7d"

/-- The same record with only the stray backslash removed: it parses, showing
the stray `\x` was the sole flaw of `mixedEscapeRaw`. -/
def mixedEscapeFixed : String := "\x7b\"explanation\":\"a\\\\s b\"\x7d"

/-- Raw model text with no `explanation` field, a candidate trim-identical to
the current document `"x"`, and a self-reported `hasChanges` that is truthy
(the string `"yes"`) but not strictly `true`. -/
def truthyFlagRaw : String := "\x7b\"modifiedLatex\":\"x\\n\",\"hasChanges\":\"yes\"\x7d"

/-! ### Shared lemmas -/

/-- The empty slice never parses. -/
theorem jsonParse_empty : jsonParse "" = none := rfl

/-- The empty slice is not recovered by the repair either. -/
theorem sliceRecover_empty : sliceRecover "" = none := rfl

/-- Every reply built by the shared parsed-record block is a 200 success with
no error field. -/
theorem tryProcessParsed_ok_fields (v : Json) (lc : String) (r : RouteResponse)
    (h : tryProcessParsed v lc = .ok (some r)) :
    r.status = 200 ∧ r.success = some true ∧ r.error = none := by
  unfold tryProcessParsed at h
  split at h
  · exact absurd h (by simp)
  · split at h
    · split at h
      · exact absurd h (by simp)
      · split at h
        · exact absurd h (by simp)
        · split at h
          · exact absurd h (by simp)
          · simp only [Except.ok.injEq, Option.some.injEq] at h
            subst h
            exact ⟨rfl, rfl, rfl⟩
    · exact absurd h (by simp)

/-- Every direct-stage reply is a 200 success with no error field. -/
theorem directStage_fields (ct text : String) :
    (directStage ct text).status = 200 ∧ (directStage ct text).success = some true ∧
      (directStage ct text).error = none := by
  unfold directStage
  split
  · exact ⟨rfl, rfl, rfl⟩
  · split
    · exact ⟨rfl, rfl, rfl⟩
    · exact ⟨rfl, rfl, rfl⟩

/-- Every repair-stage reply is a 200 success with no error field. -/
theorem repairStage_fields (js ct text lc : String) :
    (repairStage js ct text lc).status = 200 ∧
      (repairStage js ct text lc).success = some true ∧
      (repairStage js ct text lc).error = none := by
  unfold repairStage
  split
  · split
    · next r h => exact tryProcessParsed_ok_fields _ _ _ h
    · exact directStage_fields _ _
    · exact directStage_fields _ _
  · exact directStage_fields _ _

/-- Every structured-branch reply is a 200 success with no error field. -/
theorem agentHandler_fields (text lc : String) :
    (agentHandler text lc).status = 200 ∧ (agentHandler text lc).success = some true ∧
      (agentHandler text lc).error = none := by
  unfold agentHandler
  dsimp only
  split
  · exact directStage_fields _ _
  · split
    · split
      · next r h => exact tryProcessParsed_ok_fields _ _ _ h
      · exact directStage_fields _ _
      · exact repairStage_fields _ _ _ _
    · exact repairStage_fields _ _ _ _

/-- The error classifier returns one of the three failure statuses. -/
theorem classifyGeminiError_status (e : Option String) :
    (classifyGeminiError e).1 = 401 ∨ (classifyGeminiError e).1 = 429 ∨
      (classifyGeminiError e).1 = 500 := by
  unfold classifyGeminiError
  cases e with
  | none => simp
  | some m =>
    by_cases h1 : strContains m "API_KEY_INVALID"
    · simp [h1]
    · by_cases h2 : strContains m "QUOTA_EXCEEDED" <;> simp [h1, h2]

/-- A record whose field access yields a value is an object. -/
theorem jsGetField_some_obj (v : Json) (k : String) (x : Json)
    (h : jsGetField v k = .ok (some x)) : ∃ fs, v = .obj fs := by
  cases v with
  | obj fs => exact ⟨fs, rfl⟩
  | null => simp [jsGetField] at h
  | bool b => simp [jsGetField] at h
  | num n => simp [jsGetField] at h
  | str s => simp [jsGetField] at h
  | arr xs => simp [jsGetField] at h

/-- The shared parsed-record block applies a string candidate that differs
from the current document after trimming, whatever the self-reported flag. -/
theorem tryProcessParsed_applies (v e : Json) (d cur : String)
    (he : jsGetField v "explanation" = .ok (some e))
    (het : jsTruthy (some e) = true)
    (hm : jsGetField v "modifiedLatex" = .ok (some (.str d)))
    (hd0 : d ≠ "") (hdc : d ≠ cur) (hdt : jsTrim d ≠ jsTrim cur) :
    tryProcessParsed v cur =
      .ok (some ⟨200, some true, none, some e, some (.str d), some e⟩) := by
  obtain ⟨fs, rfl⟩ := jsGetField_some_obj v "explanation" e he
  have hac : hasActualChangesE (some (.str d)) cur = .ok true := by
    simp [hasActualChangesE, hd0, hdc, hdt]
  unfold tryProcessParsed
  simp only [he, het, hm, hac, if_true]
  simp [jsGetField]

/-- The shared parsed-record block on a trim-identical string candidate: the
actual-change test fails, so the self-reported flag alone decides whether the
candidate is placed in the reply. -/
theorem tryProcessParsed_trim_equal (v e : Json) (d cur : String)
    (he : jsGetField v "explanation" = .ok (some e))
    (het : jsTruthy (some e) = true)
    (hm : jsGetField v "modifiedLatex" = .ok (some (.str d)))
    (hdt : jsTrim d = jsTrim cur) :
    tryProcessParsed v cur =
      .ok (some ⟨200, some true, none, some e,
        if selfFlagTrue v then some (.str d) else none, some e⟩) := by
  obtain ⟨fs, rfl⟩ := jsGetField_some_obj v "explanation" e he
  have hac : hasActualChangesE (some (.str d)) cur = .ok false := by
    simp [hasActualChangesE, hdt]
  unfold tryProcessParsed
  simp only [he, het, hm, hac, if_true]
  simp [jsGetField, selfFlagTrue]

/-- The repair scan passes over a backslash-free prefix unchanged. -/
theorem escapeBackslashes_skips_plain (pre : List Char)
    (hpre : ∀ x ∈ pre, x ≠ '\\') (rest : List Char) :
    escapeBackslashes (pre ++ rest) = pre ++ escapeBackslashes rest := by
  induction pre with
  | nil => simp
  | cons p ps ih =>
    have hp : (p == '\\') = false := by
      simp [hpre p (by simp)]
    have hps : ∀ x ∈ ps, x ≠ '\\' := fun x hx => hpre x (by simp [hx])
    simp only [List.cons_append, escapeBackslashes, hp, Bool.false_eq_true, if_false]
    exact congrArg (p :: ·) (ih hps)

/-- The string scanner consumes a prefix of ordinary characters into the
accumulator. -/
theorem parseStringAux_scans_plain (pre : List Char)
    (hpre : ∀ x ∈ pre, plainValueChar x = true) (rest acc : List Char) :
    parseStringAux (pre ++ rest) acc = parseStringAux rest (pre.reverse ++ acc) := by
  induction pre generalizing acc with
  | nil => simp
  | cons p ps ih =>
    have hp := hpre p (by simp)
    simp only [plainValueChar, Bool.and_eq_true, Bool.not_eq_true'] at hp
    obtain ⟨⟨⟨hq, hb⟩, hctl⟩, hbt⟩ := hp
    have h32 : ¬p.toNat < 32 := by
      have h := hctl
      simp only [decide_eq_false_iff_not] at h
      exact h
    have hps : ∀ x ∈ ps, plainValueChar x = true := fun x hx => hpre x (by simp [hx])
    rw [List.cons_append]
    conv_lhs => rw [parseStringAux.eq_def]
    simp only [hq, hb, Bool.false_eq_true, if_false]
    rw [if_neg h32, ih hps]
    simp

/-- Fence stripping is the identity on backtick-free text. -/
theorem stripJsonFenceChars_id (cs : List Char) (h : ∀ x ∈ cs, x ≠ '\x60') :
    stripJsonFenceChars cs = cs := by
  induction cs with
  | nil => rfl
  | cons c t ih =>
    have hc : ('\x60' == c) = false := by
      simp [(h c (by simp)).symm]
    have ht : ∀ x ∈ t, x ≠ '\x60' := fun x hx => h x (by simp [hx])
    simp only [stripJsonFenceChars]
    rw [if_neg (by simp +decide [isPrefixOfChars, hc]), ih ht]

/-- Trimming is the identity when the first and last characters are not
whitespace. -/
theorem jsTrimChars_wrapped (x y : Char) (mid : List Char)
    (hx : isWsChar x = false) (hy : isWsChar y = false) :
    jsTrimChars (x :: (mid ++ [y])) = x :: (mid ++ [y]) := by
  unfold jsTrimChars
  rw [List.dropWhile_cons_of_neg (by simp [hx])]
  rw [show (x :: (mid ++ [y])).reverse = y :: (mid.reverse ++ [x]) by simp]
  rw [List.dropWhile_cons_of_neg (by simp [hy])]
  simp

/-- Trailing-fence stripping is the identity when the last character is
neither whitespace nor a backtick. -/
theorem stripTrailingFenceChars_wrapped (mid : List Char) (y : Char)
    (hy : isWsChar y = false) (hyb : y ≠ '\x60') :
    stripTrailingFenceChars (mid ++ [y]) = mid ++ [y] := by
  unfold stripTrailingFenceChars
  rw [show (mid ++ [y]).reverse = y :: mid.reverse by simp]
  rw [List.dropWhile_cons_of_neg (by simp [hy])]
  rw [if_neg (by simp +decide [isPrefixOfChars, hyb.symm])]

/-- The brace slice of a text that starts with `\x7b` and ends with `\x7d`
is the whole text. -/
theorem braceSlice_wrapped (mid : List Char) :
    braceSlice ⟨'\x7b' :: (mid ++ ['\x7d'])⟩ = ⟨'\x7b' :: (mid ++ ['\x7d'])⟩ := by
  unfold braceSlice lastIdxOf
  dsimp only
  rw [show firstIdxOf '\x7b' ('\x7b' :: (mid ++ ['\x7d'])) = some 0 by simp [firstIdxOf]]
  rw [show ('\x7b' :: (mid ++ ['\x7d'])).reverse = '\x7d' :: (mid.reverse ++ ['\x7b']) by simp]
  rw [show firstIdxOf '\x7d' ('\x7d' :: (mid.reverse ++ ['\x7b'])) = some 0 by simp [firstIdxOf]]
  dsimp only
  rw [show ('\x7b' :: (mid ++ ['\x7d'])).length = mid.length + 2 by simp]
  rw [if_pos (by omega)]
  rw [List.drop_zero, show mid.length + 2 - 1 - 0 + 1 - 0 = ('\x7b' :: (mid ++ ['\x7d'])).length by simp]
  rw [List.take_length]



/-- Scanning the literal key `explanation` up to its closing quote. -/
theorem parseKey_explanation (rest : List Char) :
    parseStringAux ('e' :: 'x' :: 'p' :: 'l' :: 'a' :: 'n' :: 'a' :: 't' :: 'i' :: 'o'
      :: 'n' :: '"' :: rest) [] = some ("explanation", rest) := by
  simp +decide [parseStringAux.eq_def]

/-- A string value with an unescaped backslash before a character outside
JSON\x27s escape set fails to parse. -/
theorem strayValue_fail (pre post : List Char) (c : Char)
    (hpre : ∀ x ∈ pre, plainValueChar x = true)
    (h1 : c ≠ '\\') (h2 : c ≠ '"') (h4 : c ≠ 'b') (h5 : c ≠ 'n') (h6 : c ≠ 'r')
    (h7 : c ≠ 't') (h8 : c ≠ 'f') (h9 : c ≠ 'u') (h10 : c ≠ '/') :
    parseStringAux (pre ++ ('\\' :: c :: (post ++ ['"', '\x7d']))) [] = none := by
  rw [parseStringAux_scans_plain pre hpre]
  simp +decide [parseStringAux.eq_def, h1, h2, h4, h5, h6, h7, h8, h9, h10]

/-- After the repair doubles the stray backslash, the string value parses to
the intended text (one literal backslash before `c`). -/
theorem strayValue_repaired_ok (pre post : List Char) (c : Char)
    (hpre : ∀ x ∈ pre, plainValueChar x = true)
    (hpost : ∀ x ∈ post, plainValueChar x = true)
    (h1 : c ≠ '\\') (h2 : c ≠ '"') (h11 : 32 ≤ c.toNat) :
    parseStringAux (pre ++ ('\\' :: '\\' :: c :: (post ++ ['"', '\x7d']))) [] =
      some (⟨pre ++ ('\\' :: c :: post)⟩, ['\x7d']) := by
  have hcc : ¬c.toNat < 32 := by omega
  rw [parseStringAux_scans_plain pre hpre]
  rw [parseStringAux.eq_def]
  simp +decide
  rw [parseStringAux.eq_def]
  simp +decide [h1, h2, hcc]
  rw [parseStringAux_scans_plain post hpost]
  rw [parseStringAux.eq_def]
  simp +decide [List.reverse_append]


/-- Ordinary value characters are not backslashes. -/
theorem plainValueChar_no_backslash (l : List Char)
    (h : ∀ x ∈ l, plainValueChar x = true) : ∀ x ∈ l, x ≠ '\\' := by
  intro x hx
  have := h x hx
  simp only [plainValueChar, Bool.and_eq_true, Bool.not_eq_true'] at this
  intro he
  have h2 := this.1.1.2
  rw [he] at h2
  simp at h2

/-- Ordinary value characters are not backticks. -/
theorem plainValueChar_no_backtick (l : List Char)
    (h : ∀ x ∈ l, plainValueChar x = true) : ∀ x ∈ l, x ≠ '\x60' := by
  intro x hx
  have := h x hx
  simp only [plainValueChar, Bool.and_eq_true, Bool.not_eq_true'] at this
  intro he
  have h2 := this.2
  rw [he] at h2
  simp at h2

/-- The stray-backslash payload fails the fueled value parse. -/
theorem strayPayload_parse_fail (pre post : List Char) (c : Char)
    (hpre : ∀ x ∈ pre, plainValueChar x = true)
    (h1 : c ≠ '\\') (h2 : c ≠ '"') (h4 : c ≠ 'b') (h5 : c ≠ 'n') (h6 : c ≠ 'r')
    (h7 : c ≠ 't') (h8 : c ≠ 'f') (h9 : c ≠ 'u') (h10 : c ≠ '/') :
    ∀ f, parseStep (f + 3) (.value (strayPayloadGen pre c post).data) = none := by
  intro f
  have hkey := parseKey_explanation
  have hval := strayValue_fail pre post c hpre h1 h2 h4 h5 h6 h7 h8 h9 h10
  simp +decide [parseStep, strayPayloadGen, skipWs, hkey, hval]

/-- The repair doubles exactly the stray backslash of the payload and leaves
everything else unchanged. -/
theorem strayPayload_repaired_data (pre post : List Char) (c : Char)
    (hpre : ∀ x ∈ pre, plainValueChar x = true)
    (hpost : ∀ x ∈ post, plainValueChar x = true)
    (h1 : c ≠ '\\') (h2 : c ≠ '"') (h3 : c ≠ '\x27') (h4 : c ≠ 'b') (h5 : c ≠ 'n')
    (h6 : c ≠ 'r') (h7 : c ≠ 't') (h8 : c ≠ 'f') (h9 : c ≠ 'u') :
    (repairStr (strayPayloadGen pre c post)).data =
      '\x7b' :: '"' :: 'e' :: 'x' :: 'p' :: 'l' :: 'a' :: 'n' :: 'a' :: 't' :: 'i' :: 'o' :: 'n'
        :: '"' :: ':' :: '"' :: (pre ++ ('\\' :: '\\' :: c :: (post ++ ['"', '\x7d']))) := by
  have hcl : c ∉ repairEscClass := by
    simp +decide [repairEscClass, h1, h2, h3, h4, h5, h6, h7, h8, h9]
  unfold repairStr strayPayloadGen
  dsimp only
  rw [show ('\x7b' :: '"' :: 'e' :: 'x' :: 'p' :: 'l' :: 'a' :: 'n' :: 'a' :: 't' :: 'i' :: 'o'
      :: 'n' :: '"' :: ':' :: '"' :: (pre ++ ('\\' :: c :: (post ++ ['"', '\x7d'])))) =
    (['\x7b', '"', 'e', 'x', 'p', 'l', 'a', 'n', 'a', 't', 'i', 'o', 'n', '"', ':', '"'] ++
      (pre ++ ('\\' :: c :: (post ++ ['"', '\x7d'])))) from by simp]
  rw [escapeBackslashes_skips_plain _ (by decide)]
  rw [escapeBackslashes_skips_plain pre (plainValueChar_no_backslash pre hpre)]
  rw [escapeBackslashes.eq_def]
  simp +decide [hcl]
  rw [escapeBackslashes.eq_def]
  simp +decide [h1]
  rw [escapeBackslashes_skips_plain post (plainValueChar_no_backslash post hpost)]
  simp +decide [escapeBackslashes.eq_def]

/-- The repaired payload parses to the intended one-field record with the
backslash preserved in the value. -/
theorem strayPayload_repaired_parse (pre post : List Char) (c : Char)
    (hpre : ∀ x ∈ pre, plainValueChar x = true)
    (hpost : ∀ x ∈ post, plainValueChar x = true)
    (h1 : c ≠ '\\') (h2 : c ≠ '"') (h11 : 32 ≤ c.toNat) :
    ∀ f, parseStep (f + 3) (.value ('\x7b' :: '"' :: 'e' :: 'x' :: 'p' :: 'l' :: 'a' :: 'n'
        :: 'a' :: 't' :: 'i' :: 'o' :: 'n' :: '"' :: ':' :: '"'
        :: (pre ++ ('\\' :: '\\' :: c :: (post ++ ['"', '\x7d']))))) =
      some (.obj [("explanation", .str ⟨pre ++ ('\\' :: c :: post)⟩)], []) := by
  intro f
  have hkey := parseKey_explanation
  have hval := strayValue_repaired_ok pre post c hpre hpost h1 h2 h11
  simp +decide [parseStep, skipWs, hkey, hval]


/-- Cleaning (trim and fence stripping) leaves the payload unchanged. -/
theorem strayPayload_cleaned (pre post : List Char) (c : Char)
    (hpre : ∀ x ∈ pre, plainValueChar x = true)
    (hpost : ∀ x ∈ post, plainValueChar x = true)
    (h12 : c ≠ '\x60') :
    cleanedOf (strayPayloadGen pre c post) = strayPayloadGen pre c post := by
  have hshape : (strayPayloadGen pre c post).data =
      '\x7b' :: (('"' :: 'e' :: 'x' :: 'p' :: 'l' :: 'a' :: 'n' :: 'a' :: 't' :: 'i' :: 'o'
        :: 'n' :: '"' :: ':' :: '"' :: (pre ++ ('\\' :: c :: (post ++ ['"'])))) ++ ['\x7d']) := by
    simp [strayPayloadGen]
  have hbt : ∀ z ∈ ('\x7b' :: (('"' :: 'e' :: 'x' :: 'p' :: 'l' :: 'a' :: 'n' :: 'a' :: 't'
      :: 'i' :: 'o' :: 'n' :: '"' :: ':' :: '"' :: (pre ++ ('\\' :: c :: (post ++ ['"']))))
      ++ ['\x7d'])), z ≠ '\x60' := by
    simp +decide [List.forall_mem_cons, List.forall_mem_append, List.forall_mem_singleton]
    intro z hz
    rcases hz with hz | rfl | rfl | hz | rfl | rfl
    all_goals first
      | decide
      | exact plainValueChar_no_backtick pre hpre _ hz
      | exact plainValueChar_no_backtick post hpost _ hz
      | exact h12
  unfold cleanedOf
  rw [hshape]
  rw [jsTrimChars_wrapped _ _ _ (by decide) (by decide)]
  rw [stripJsonFenceChars_id _ hbt]
  rw [show ('\x7b' :: (('"' :: 'e' :: 'x' :: 'p' :: 'l' :: 'a' :: 'n' :: 'a' :: 't' :: 'i'
      :: 'o' :: 'n' :: '"' :: ':' :: '"' :: (pre ++ ('\\' :: c :: (post ++ ['"']))))
      ++ ['\x7d'])) =
    (('\x7b' :: '"' :: 'e' :: 'x' :: 'p' :: 'l' :: 'a' :: 'n' :: 'a' :: 't' :: 'i' :: 'o'
      :: 'n' :: '"' :: ':' :: '"' :: (pre ++ ('\\' :: c :: (post ++ ['"']))))
      ++ ['\x7d']) from by simp]
  rw [stripTrailingFenceChars_wrapped _ _ (by decide) (by decide)]
  apply congrArg String.mk
  simp [strayPayloadGen]

/-- The brace slice of the payload is the payload itself. -/
theorem strayPayload_slice (pre post : List Char) (c : Char) :
    braceSlice (strayPayloadGen pre c post) = strayPayloadGen pre c post := by
  rw [show strayPayloadGen pre c post =
      ⟨'\x7b' :: (('"' :: 'e' :: 'x' :: 'p' :: 'l' :: 'a' :: 'n' :: 'a' :: 't' :: 'i' :: 'o'
        :: 'n' :: '"' :: ':' :: '"' :: (pre ++ ('\\' :: c :: (post ++ ['"']))))
        ++ ['\x7d'])⟩ from congrArg String.mk (by simp [strayPayloadGen])]
  exact braceSlice_wrapped _

/-- The repair cannot in general recover payloads whose value mixes correctly
escaped backslash pairs with a stray backslash: on `mixedEscapeRaw` — whose
sole flaw is the stray `\x`, as removing it gives a valid record — the scan
also doubles the second backslash of the correctly escaped pair before `s`,
so both the repaired slice and the whole text stay unparseable and the
extractor falls back. -/
theorem repair_corrupts_escaped_pair :
    jsonParse mixedEscapeRaw = none ∧
    jsonParse mixedEscapeFixed = some (.obj [("explanation", .str "a\\s b")]) ∧
    jsonParse (repairStr mixedEscapeRaw) = none ∧
    agentHandler mixedEscapeRaw sampleDoc = fallbackResponse mixedEscapeRaw :=
  ⟨rfl, rfl, rfl, rfl⟩

/-- On the whole-text parse path (route.ts line 181) the self-reported flag
is tested for truthiness, not strict equality: a trim-identical candidate
arriving with the truthy flag `"yes"` is returned and applied. -/
theorem wholeText_truthy_flag_applies :
    jsTrim "x\n" = jsTrim "x" ∧
    (agentHandler truthyFlagRaw "x").modifiedLatex = some (.str "x\n") ∧
    clientApplies "edit" (agentHandler truthyFlagRaw "x") "x" = true :=
  ⟨rfl, rfl, rfl⟩

/-! ### Claim theorems -/

/-- C1: the claimed invariant fails on the code. Evaluating the structured
branch at a raw payload whose `modifiedDocument` is only a body fragment
(`hasChanges: true`), the handler returns that fragment as a non-null
document even though it fails the Completeness Validator, and the client in
edit flow applies it, replacing the full current document. -/
theorem c1_incomplete_fragment_returned :
    (agentHandler fragmentRaw sampleDoc).modifiedLatex = some (.str sampleFragment) ∧
    isComplete sampleFragment = false ∧
    isComplete sampleDoc = true ∧
    clientApplies "edit" (agentHandler fragmentRaw sampleDoc) sampleDoc = true ∧
    clientLatexAfter "edit" (agentHandler fragmentRaw sampleDoc) sampleDoc = sampleFragment :=
  ⟨rfl, rfl, rfl, rfl, rfl⟩

/-- C3 counterexample: a raw payload with no `explanation` field, a complete
`modifiedDocument` differing from the current document, and `hasChanges:
false` reaches the direct whole-text parse, which obeys the self-reported
flag: the result carries a null document, not `applied`. -/
theorem c3_direct_parse_ignores_override :
    jsonParse (braceSlice (cleanedOf noExplanationRaw)) =
      some (.obj [("hasChanges", .bool false), ("modifiedLatex", .str sampleDoc2)]) ∧
    isComplete sampleDoc2 = true ∧
    jsTrim sampleDoc2 ≠ jsTrim sampleDoc ∧
    (agentHandler noExplanationRaw sampleDoc).modifiedLatex = none :=
  ⟨rfl, rfl, by decide, rfl⟩

/-- C4 counterexample: a candidate (`"x\n"`) that is trim-identical to the
current document (`"x"`) but self-reports `hasChanges: true` is returned as a
non-null document and applied by the client, contradicting the claimed
unconditional no-op. -/
theorem c4_trim_equal_candidate_applied :
    jsTrim "x\n" = jsTrim "x" ∧
    (agentHandler trimEqualRaw "x").modifiedLatex = some (.str "x\n") ∧
    clientApplies "edit" (agentHandler trimEqualRaw "x") "x" = true ∧
    clientLatexAfter "edit" (agentHandler trimEqualRaw "x") "x" = "x\n" :=
  ⟨rfl, rfl, rfl, rfl⟩

/-- C5 counterexample: a payload failing direct parsing because of an
unescaped backslash inside a string value — here immediately before the
closing quote, so the regex reads it as an escaped quote and leaves it alone —
is not recovered by the repair: both parses fail and the extractor falls back,
although deleting the stray backslash gives a valid record. -/
theorem c5_backslash_before_quote_not_recovered :
    braceSlice (cleanedOf trailingBackslashRaw) = trailingBackslashRaw ∧
    jsonParse trailingBackslashRaw = none ∧
    repairStr trailingBackslashRaw = trailingBackslashRaw ∧
    jsonParse trailingBackslashFixed = some (.obj [("explanation", .str "x")]) ∧
    agentHandler trailingBackslashRaw sampleDoc = fallbackResponse trailingBackslashRaw :=
  ⟨rfl, rfl, rfl, rfl, rfl⟩

/-- C6: when no stage can parse a structured record — the brace slice fails
directly and after repair, and the whole cleaned text fails too — the
extractor returns the fixed fallback: `success: true`, the fixed
rephrase-request explanation, the raw text as `response`, and a null
document. The handler is a total function, so no input throws. -/
theorem c6_unparseable_yields_fallback (text latexContent : String)
    (h1 : jsonParse (braceSlice (cleanedOf text)) = none)
    (h2 : jsonParse (repairStr (braceSlice (cleanedOf text))) = none)
    (h3 : jsonParse (cleanedOf text) = none) :
    agentHandler text latexContent = fallbackResponse text := by
  unfold agentHandler repairStage directStage
  dsimp only
  by_cases hjs : braceSlice (cleanedOf text) == ""
  · simp [hjs, h3]
  · simp [hjs, h1, h2, h3]

/-- C6 witness: plain prose with no structure yields the fallback. -/
theorem c6_unparseable_yields_fallback_witness :
    agentHandler proseRaw sampleDoc = fallbackResponse proseRaw :=
  c6_unparseable_yields_fallback proseRaw sampleDoc rfl rfl rfl

/-- C7: a syntactically valid structured payload with a truthy string
explanation, `hasChanges: false` and no `modifiedLatex` field yields the
no-op reply: the explanation verbatim and a null document. -/
theorem c7_noop_roundtrip (raw cur : String) (v : Json) (e : String)
    (h1 : jsonParse (braceSlice (cleanedOf raw)) = some v)
    (hne : e ≠ "")
    (he : jsGetField v "explanation" = .ok (some (.str e)))
    (hm : jsGetField v "modifiedLatex" = .ok none)
    (hh : jsGetField v "hasChanges" = .ok (some (.bool false))) :
    agentHandler raw cur = ⟨200, some true, none, some (.str e), none, some (.str e)⟩ := by
  have hjs : ¬(braceSlice (cleanedOf raw) == "") = true := by
    intro h
    rw [beq_iff_eq] at h
    rw [h, jsonParse_empty] at h1
    exact Option.noConfusion h1
  unfold agentHandler tryProcessParsed
  dsimp only
  simp [hjs, h1, he, hm, hh, jsTruthy, hne, hasActualChangesE, selfReportTrue]

/-- C7 witness: the concrete no-op payload round-trips its explanation. -/
theorem c7_noop_roundtrip_witness :
    agentHandler noopRaw sampleDoc =
      ⟨200, some true, none, some (.str "All good, nothing to change"), none,
        some (.str "All good, nothing to change")⟩ :=
  c7_noop_roundtrip noopRaw sampleDoc noopJson "All good, nothing to change"
    rfl (by decide) rfl rfl rfl

/-- C2: the structured pipeline guard holds exactly for mode `"agent"` with
non-empty content; the UI modes `"ask"`/`"edit"` never satisfy it; and every
response to a request that does not satisfy it — whatever the model call did —
carries no `modifiedLatex` field. -/
theorem c2_ui_modes_bypass_agent_pipeline :
    (∀ mode lc : String, usesAgentPipeline mode lc = true ↔ (mode = "agent" ∧ lc ≠ "")) ∧
    (∀ (m : UiMode) (lc : String), usesAgentPipeline m.str lc = false) ∧
    (∀ (req : ChatRequest) (key : Bool) (out : Except (Option String) String),
      usesAgentPipeline req.mode req.latexContent = false →
      (post req key out).modifiedLatex = none) := by
  refine ⟨?_, ?_, ?_⟩
  · intro mode lc
    simp [usesAgentPipeline]
  · intro m lc
    cases m <;> simp [usesAgentPipeline, UiMode.str]
  · intro req key out h
    unfold post
    cases req.message with
    | none => rfl
    | some m =>
      dsimp only
      split
      · rfl
      · split
        · rfl
        · cases out with
          | error e => rfl
          | ok text => simp [h]

/-- C2 witness: a concrete edit-mode request is answered without a
`modifiedLatex` field, and the guard characterisation holds at `"agent"`. -/
theorem c2_ui_modes_bypass_agent_pipeline_witness :
    usesAgentPipeline (UiMode.edit.str) sampleDoc = false ∧
    (post ⟨some "hi", none, sampleDoc, UiMode.edit.str⟩ true
      (.ok fragmentRaw)).modifiedLatex = none ∧
    usesAgentPipeline "agent" sampleDoc = true :=
  ⟨c2_ui_modes_bypass_agent_pipeline.2.1 UiMode.edit sampleDoc,
   c2_ui_modes_bypass_agent_pipeline.2.2 ⟨some "hi", none, sampleDoc, UiMode.edit.str⟩
     true (.ok fragmentRaw)
     (c2_ui_modes_bypass_agent_pipeline.2.1 UiMode.edit sampleDoc),
   (c2_ui_modes_bypass_agent_pipeline.1 "agent" sampleDoc).mpr ⟨rfl, by decide⟩⟩

/-- C10: a 200 response always has `success: true` (extraction failures
included); a non-200 response carries an `error` field and no `success`
flag; a response carrying any `modifiedLatex` has `success: true`; hence the
client branch applying `modifiedLatex` on a non-success body is never taken
on a body this endpoint produces. -/
theorem c10_success_flag_invariant (req : ChatRequest) (key : Bool)
    (out : Except (Option String) String) :
    ((post req key out).status = 200 → (post req key out).success = some true) ∧
    ((post req key out).status ≠ 200 →
      (post req key out).error ≠ none ∧ (post req key out).success = none) ∧
    ((post req key out).modifiedLatex ≠ none →
      (post req key out).success = some true ∧ (post req key out).status = 200) ∧
    clientSecondBranch (post req key out) = false := by
  unfold post
  cases req.message with
  | none =>
    dsimp only
    exact ⟨fun h => absurd h (by decide), fun _ => ⟨by simp, rfl⟩,
      fun h => absurd rfl h, rfl⟩
  | some m =>
    dsimp only
    split
    · exact ⟨fun h => absurd h (by decide), fun _ => ⟨by simp, rfl⟩,
        fun h => absurd rfl h, rfl⟩
    · split
      · exact ⟨fun h => absurd h (by decide), fun _ => ⟨by simp, rfl⟩,
          fun h => absurd rfl h, rfl⟩
      · cases out with
        | error e =>
          dsimp only
          refine ⟨?_, fun _ => ⟨by simp, rfl⟩, fun h => absurd rfl h, rfl⟩
          intro h
          rcases classifyGeminiError_status e with h4 | h4 | h4 <;>
            rw [h4] at h <;> exact absurd h (by decide)
        | ok text =>
          dsimp only
          split
          · obtain ⟨hs, hsu, he⟩ := agentHandler_fields text req.latexContent
            refine ⟨fun _ => hsu, fun h => absurd hs h, fun _ => ⟨hsu, hs⟩, ?_⟩
            unfold clientSecondBranch
            rw [hsu]
            simp
          · exact ⟨fun _ => rfl, fun h => absurd rfl h, fun _ => ⟨rfl, rfl⟩, rfl⟩

/-- C10 witness: at a concrete unparseable agent-mode exchange, the 200
response has `success: true`, and the client's apply-without-compile branch
is off. -/
theorem c10_success_flag_invariant_witness :
    (post ⟨some "hi", none, sampleDoc, "agent"⟩ true (.ok proseRaw)).success = some true ∧
    clientSecondBranch (post ⟨some "hi", none, sampleDoc, "agent"⟩ true (.ok proseRaw)) = false :=
  ⟨(c10_success_flag_invariant ⟨some "hi", none, sampleDoc, "agent"⟩ true (.ok proseRaw)).1 rfl,
   (c10_success_flag_invariant ⟨some "hi", none, sampleDoc, "agent"⟩ true (.ok proseRaw)).2.2.2⟩

/-- C8: the conversation context sent to the model is the rendering of
exactly the last `min(10, length)` turns of the submitted history: it is the
join of the renderings of the length-`min(10, length)` suffix (so every
retained turn keeps its original order and every older turn is absent from
the context), each rendered as a `User: text` or `Assistant: text` line; and
the agent prompt embeds that context verbatim between fixed template parts. -/
theorem c8_history_window (msgs : List HistMsg) :
    conversationContext (some msgs) =
      String.intercalate "\n" ((msgs.drop (msgs.length - 10)).map renderTurn) ∧
    msgs = msgs.take (msgs.length - 10) ++ msgs.drop (msgs.length - 10) ∧
    (msgs.drop (msgs.length - 10)).length = min 10 msgs.length ∧
    (∀ m ∈ msgs.drop (msgs.length - 10),
      renderTurn m = "User: " ++ m.content ∨ renderTurn m = "Assistant: " ++ m.content) ∧
    (∀ lc instr : String, conversationContext (some msgs) ≠ "" →
      agentPrompt lc instr (conversationContext (some msgs)) =
        agentPromptPrefix lc instr ++
          ("PREVIOUS CONVERSATION:\n" ++ (conversationContext (some msgs) ++ "\n")) ++
          agentPromptSuffix) := by
  refine ⟨rfl, (msgs.take_append_drop _).symm, ?_, ?_, ?_⟩
  · rw [List.length_drop]
    omega
  · intro m _
    unfold renderTurn
    by_cases h : m.role == "user"
    · left
      rw [if_pos h]
      rfl
    · right
      rw [if_neg h]
      rfl
  · intro lc instr h
    unfold agentPrompt
    rw [if_neg (by simpa using h)]
    simp [String.append_assoc]

/-- C8 witness: a twelve-turn history keeps exactly the last ten turns, in
order, and the agent prompt embeds them. -/
theorem c8_history_window_witness :
    conversationContext (some (((List.range 12).map
      (fun i => (⟨"user", toString i⟩ : HistMsg))))) =
      "User: 2\nUser: 3\nUser: 4\nUser: 5\nUser: 6\nUser: 7\nUser: 8\nUser: 9\nUser: 10\nUser: 11" ∧
    agentPrompt sampleDoc "tweak"
        (conversationContext (some (((List.range 12).map
          (fun i => (⟨"user", toString i⟩ : HistMsg)))))) =
      agentPromptPrefix sampleDoc "tweak" ++
        ("PREVIOUS CONVERSATION:\n" ++
          (conversationContext (some (((List.range 12).map
            (fun i => (⟨"user", toString i⟩ : HistMsg))))) ++ "\n")) ++
        agentPromptSuffix :=
  ⟨rfl,
   (c8_history_window (((List.range 12).map
      (fun i => (⟨"user", toString i⟩ : HistMsg))))).2.2.2.2 sampleDoc "tweak"
     (by decide)⟩

/-- C9: a failed model call is classified by its message — containing
`API_KEY_INVALID` gives status 401 with the authentication error body,
otherwise containing `QUOTA_EXCEEDED` gives 429 with the quota error body,
anything else gives the generic 500 — the handler returns that status with
the error body and no document; and on every such path the client leaves the
editor content unchanged and appends exactly one assistant turn (after the
user turn) describing the failure class. -/
theorem c9_error_classification (e : String) (req : ChatRequest) (m : String)
    (messages : List HistMsg) (uc latex : String)
    (hmsg : req.message = some m) (hm : m ≠ "") :
    (strContains e "API_KEY_INVALID" = true →
      classifyGeminiError (some e) = (401, "Invalid API key") ∧
      clientErrorMessage 401 (some "Invalid API key") =
        "API authentication failed. Please check the configuration.") ∧
    (strContains e "API_KEY_INVALID" = false → strContains e "QUOTA_EXCEEDED" = true →
      classifyGeminiError (some e) = (429, "API quota exceeded") ∧
      clientErrorMessage 429 (some "API quota exceeded") =
        "API rate limit exceeded. Please try again later.") ∧
    (strContains e "API_KEY_INVALID" = false → strContains e "QUOTA_EXCEEDED" = false →
      classifyGeminiError (some e) = (500, "Failed to generate response") ∧
      clientErrorMessage 500 (some "Failed to generate response") =
        "Failed to generate response") ∧
    post req true (.error (some e)) =
      ⟨(classifyGeminiError (some e)).1, none, some (classifyGeminiError (some e)).2,
        none, none, none⟩ ∧
    clientCatch (classifyGeminiError (some e)).1
        (some (classifyGeminiError (some e)).2) messages uc latex =
      (messages ++ [⟨"user", uc⟩, ⟨"assistant",
        clientErrorMessage (classifyGeminiError (some e)).1
          (some (classifyGeminiError (some e)).2)⟩], latex) := by
  refine ⟨?_, ?_, ?_, ?_, rfl⟩
  · intro h1
    exact ⟨by simp [classifyGeminiError, h1], rfl⟩
  · intro h1 h2
    exact ⟨by simp [classifyGeminiError, h1, h2], rfl⟩
  · intro h1 h2
    exact ⟨by simp [classifyGeminiError, h1, h2], rfl⟩
  · unfold post
    rw [hmsg]
    dsimp only
    rw [if_neg (by simpa using hm)]
    rfl

/-- C9 witness: the three concrete failure messages map to 401, 429 and 500,
the editor content survives, and the transcript gains the single assistant
error turn. -/
theorem c9_error_classification_witness :
    classifyGeminiError (some "API_KEY_INVALID: denied") = (401, "Invalid API key") ∧
    classifyGeminiError (some "QUOTA_EXCEEDED today") = (429, "API quota exceeded") ∧
    classifyGeminiError (some "socket hang up") = (500, "Failed to generate response") ∧
    clientCatch 401 (some "Invalid API key") [] "hi" sampleDoc =
      ([⟨"user", "hi"⟩, ⟨"assistant",
        "API authentication failed. Please check the configuration."⟩], sampleDoc) :=
  ⟨((c9_error_classification "API_KEY_INVALID: denied" ⟨some "hi", none, "", "ask"⟩
      "hi" [] "hi" sampleDoc rfl (by decide)).1 rfl).1,
   ((c9_error_classification "QUOTA_EXCEEDED today" ⟨some "hi", none, "", "ask"⟩
      "hi" [] "hi" sampleDoc rfl (by decide)).2.1 rfl rfl).1,
   ((c9_error_classification "socket hang up" ⟨some "hi", none, "", "ask"⟩
      "hi" [] "hi" sampleDoc rfl (by decide)).2.2.1 rfl rfl).1,
   by
    have h := (c9_error_classification "API_KEY_INVALID: denied"
      ⟨some "hi", none, "", "ask"⟩ "hi" [] "hi" sampleDoc rfl (by decide)).2.2.2.2
    simpa using h⟩

/-- If either brace-slice parse recovers a record and the shared block builds
a reply from it, the structured branch returns exactly that reply. -/
theorem agentHandler_of_sliceRecover (raw cur : String) (v : Json) (r : RouteResponse)
    (hp : sliceRecover (braceSlice (cleanedOf raw)) = some v)
    (htp : tryProcessParsed v cur = .ok (some r)) :
    agentHandler raw cur = r := by
  have hjs : ¬(braceSlice (cleanedOf raw) == "") = true := by
    intro h
    rw [beq_iff_eq] at h
    rw [h, sliceRecover_empty] at hp
    exact Option.noConfusion hp
  unfold agentHandler
  dsimp only
  rw [if_neg hjs]
  unfold sliceRecover at hp
  cases hj : jsonParse (braceSlice (cleanedOf raw)) with
  | some w =>
    rw [hj] at hp
    dsimp only at hp
    cases hp
    dsimp only
    rw [htp]
  | none =>
    rw [hj] at hp
    dsimp only at hp
    unfold repairStage
    dsimp only
    rw [hp]
    dsimp only
    rw [htp]

/-- C3 amended: on the brace-slice parsing paths (the direct parse and the
backslash-repair retry), a parsed record with truthy explanation whose
complete `modifiedLatex` differs from the current document after trimming is
returned as the applied document even when the record self-reports
`hasChanges: false` (or any other flag value); the whole-text fallback parse
is excluded, since there the self-reported flag alone decides. -/
theorem c3_slice_paths_apply_override (raw cur : String) (v e : Json) (d : String)
    (hp : sliceRecover (braceSlice (cleanedOf raw)) = some v)
    (he : jsGetField v "explanation" = .ok (some e))
    (het : jsTruthy (some e) = true)
    (hm : jsGetField v "modifiedLatex" = .ok (some (.str d)))
    (hcomp : isComplete d = true)
    (hdt : jsTrim d ≠ jsTrim cur) :
    (agentHandler raw cur).modifiedLatex = some (.str d) ∧
    (agentHandler raw cur).success = some true := by
  have hd0 : d ≠ "" := by
    intro h
    rw [h] at hcomp
    exact absurd hcomp (by decide)
  have hdc : d ≠ cur := by
    intro h
    rw [h] at hdt
    exact hdt rfl
  have hres := agentHandler_of_sliceRecover raw cur v _ hp
    (tryProcessParsed_applies v e d cur he het hm hd0 hdc hdt)
  rw [hres]
  exact ⟨rfl, rfl⟩

set_option maxRecDepth 8192 in
/-- C3 amendment witness: a concrete slice-path payload self-reporting
`hasChanges: false` with a complete differing document is applied. -/
theorem c3_slice_paths_apply_override_witness :
    (agentHandler overrideRaw sampleDoc).modifiedLatex = some (.str sampleDoc2) ∧
    (agentHandler overrideRaw sampleDoc).success = some true :=
  c3_slice_paths_apply_override overrideRaw sampleDoc overrideJson
    (.str "rewrote body") sampleDoc2 rfl rfl rfl rfl rfl (by decide)

/-- C4 amended: on the brace-slice parsing paths of the Response Extractor
(a record parsed from the brace slice, directly or after the backslash
repair, with a truthy explanation), a trim-identical string candidate is
returned as the document exactly when the record self-reports
`hasChanges === true` (otherwise the outcome is the no-op null document),
and the client applies it exactly when additionally the candidate is
non-empty and differs from the current document before trimming. The
whole-text fallback parse is excluded: there the flag is tested for
truthiness only, as `wholeText_truthy_flag_applies` shows. -/
theorem c4_trim_equal_flag_decides (raw cur : String) (v e : Json) (d : String)
    (hp : sliceRecover (braceSlice (cleanedOf raw)) = some v)
    (he : jsGetField v "explanation" = .ok (some e))
    (het : jsTruthy (some e) = true)
    (hm : jsGetField v "modifiedLatex" = .ok (some (.str d)))
    (hdt : jsTrim d = jsTrim cur) :
    (agentHandler raw cur).modifiedLatex =
      (if selfFlagTrue v then some (.str d) else none) ∧
    clientApplies "edit" (agentHandler raw cur) cur =
      (selfFlagTrue v && !(d == "") && !(d == cur)) := by
  have hres := agentHandler_of_sliceRecover raw cur v _ hp
    (tryProcessParsed_trim_equal v e d cur he het hm hdt)
  rw [hres]
  refine ⟨rfl, ?_⟩
  by_cases hf : selfFlagTrue v
  · simp [hf, clientApplies, clientIsEditFlow, jsTruthy, mlStrictNeq, Bool.and_assoc]
  · simp [hf, clientApplies, clientIsEditFlow, jsTruthy, mlStrictNeq]

/-- C4 amendment witness: the trim-identical candidate with `hasChanges:
false` yields the null document and is not applied. -/
theorem c4_trim_equal_flag_decides_witness :
    (agentHandler trimEqualFlagFalseRaw "x").modifiedLatex = none ∧
    clientApplies "edit" (agentHandler trimEqualFlagFalseRaw "x") "x" = false := by
  have h := c4_trim_equal_flag_decides trimEqualFlagFalseRaw "x"
    trimEqualFlagFalseJson (.str "styled") "x\n" rfl rfl rfl rfl (by decide)
  exact ⟨h.1, h.2⟩

/-- C5 amended: the repair does recover every structured-template payload
`\x7b"explanation":"<pre>\<c><post>"\x7d` whose value is ordinary text (no
quote, backslash, control character or backtick in `pre`/`post`) apart from
one unescaped backslash whose following character `c` lies outside both the
regex\x27s recognised-escape class `[\\"\x27bnrtfu]` and JSON\x27s own escape set
(and is neither a control character nor a backtick): direct parsing of the
slice fails, the repair doubles exactly the stray backslash, the repaired
slice parses to the intended record, and the structured branch returns that
record\x27s explanation with a null document. Payloads where the stray
backslash precedes a class character, or whose value contains further
backslashes, are excluded: the counterexample and `repair_corrupts_escaped_pair`
show such payloads can stay unparseable. -/
theorem c5_nonescape_backslash_repaired (pre post : List Char) (c : Char) (cur : String)
    (hpre : ∀ x ∈ pre, plainValueChar x = true)
    (hpost : ∀ x ∈ post, plainValueChar x = true)
    (h1 : c ≠ '\\') (h2 : c ≠ '"') (h3 : c ≠ '\x27') (h4 : c ≠ 'b') (h5 : c ≠ 'n')
    (h6 : c ≠ 'r') (h7 : c ≠ 't') (h8 : c ≠ 'f') (h9 : c ≠ 'u') (h10 : c ≠ '/')
    (h11 : 32 ≤ c.toNat) (h12 : c ≠ '\x60') :
    jsonParse (strayPayloadGen pre c post) = none ∧
    jsonParse (repairStr (strayPayloadGen pre c post)) =
      some (.obj [("explanation", .str ⟨pre ++ ('\\' :: c :: post)⟩)]) ∧
    agentHandler (strayPayloadGen pre c post) cur =
      ⟨200, some true, none, some (.str ⟨pre ++ ('\\' :: c :: post)⟩), none,
        some (.str ⟨pre ++ ('\\' :: c :: post)⟩)⟩ := by
  have hlen : (strayPayloadGen pre c post).data.length = pre.length + post.length + 20 := by
    simp [strayPayloadGen]
    omega
  have hsk : skipWs (strayPayloadGen pre c post).data = (strayPayloadGen pre c post).data := by
    simp +decide [skipWs, strayPayloadGen, List.dropWhile_cons]
  have hfail : jsonParse (strayPayloadGen pre c post) = none := by
    unfold jsonParse parseValue
    rw [hsk, hlen]
    rw [show pre.length + post.length + 20 + 2 = (pre.length + post.length + 19) + 3 from by omega]
    rw [strayPayload_parse_fail pre post c hpre h1 h2 h4 h5 h6 h7 h8 h9 h10]
  have hrepdata := strayPayload_repaired_data pre post c hpre hpost h1 h2 h3 h4 h5 h6 h7 h8 h9
  have hrep : jsonParse (repairStr (strayPayloadGen pre c post)) =
      some (.obj [("explanation", .str ⟨pre ++ ('\\' :: c :: post)⟩)]) := by
    unfold jsonParse parseValue
    rw [hrepdata]
    have hl2 : ('\x7b' :: '"' :: 'e' :: 'x' :: 'p' :: 'l' :: 'a' :: 'n' :: 'a' :: 't' :: 'i'
        :: 'o' :: 'n' :: '"' :: ':' :: '"'
        :: (pre ++ ('\\' :: '\\' :: c :: (post ++ ['"', '\x7d'])))).length =
        pre.length + post.length + 21 := by
      simp
      omega
    rw [show skipWs ('\x7b' :: '"' :: 'e' :: 'x' :: 'p' :: 'l' :: 'a' :: 'n' :: 'a' :: 't'
        :: 'i' :: 'o' :: 'n' :: '"' :: ':' :: '"'
        :: (pre ++ ('\\' :: '\\' :: c :: (post ++ ['"', '\x7d'])))) =
      ('\x7b' :: '"' :: 'e' :: 'x' :: 'p' :: 'l' :: 'a' :: 'n' :: 'a' :: 't' :: 'i' :: 'o'
        :: 'n' :: '"' :: ':' :: '"' :: (pre ++ ('\\' :: '\\' :: c :: (post ++ ['"', '\x7d']))))
      from by simp +decide [skipWs, List.dropWhile_cons]]
    rw [hl2]
    rw [show pre.length + post.length + 21 + 2 = (pre.length + post.length + 20) + 3 from by omega]
    rw [strayPayload_repaired_parse pre post c hpre hpost h1 h2 h11]
    rfl
  have hclean := strayPayload_cleaned pre post c hpre hpost h12
  have hslice := strayPayload_slice pre post c
  have hsr : sliceRecover (braceSlice (cleanedOf (strayPayloadGen pre c post))) =
      some (.obj [("explanation", .str ⟨pre ++ ('\\' :: c :: post)⟩)]) := by
    rw [hclean, hslice]
    unfold sliceRecover
    rw [hfail, hrep]
  have hne : (⟨pre ++ ('\\' :: c :: post)⟩ : String) ≠ "" := by
    intro h
    have h2 := congrArg String.data h
    simp at h2
  have htp : tryProcessParsed (.obj [("explanation", .str ⟨pre ++ ('\\' :: c :: post)⟩)]) cur =
      .ok (some ⟨200, some true, none, some (.str ⟨pre ++ ('\\' :: c :: post)⟩), none,
        some (.str ⟨pre ++ ('\\' :: c :: post)⟩)⟩) := by
    simp +decide [tryProcessParsed, jsGetField, jsTruthy, hasActualChangesE,
      selfReportTrue, hne]
  exact ⟨hfail, hrep,
    agentHandler_of_sliceRecover (strayPayloadGen pre c post) cur _ _ hsr htp⟩

/-- C5 amendment witness: the LaTeX-typical stray escape `\d` (as in
`\documentclass`) inside ordinary surrounding text is repaired and the
record recovered with its explanation intact. -/
theorem c5_nonescape_backslash_repaired_witness :
    jsonParse (strayPayloadGen "Use ".data 'd' "ocumentclass here".data) = none ∧
    jsonParse (repairStr (strayPayloadGen "Use ".data 'd' "ocumentclass here".data)) =
      some (.obj [("explanation",
        .str ⟨"Use ".data ++ ('\\' :: 'd' :: "ocumentclass here".data)⟩)]) ∧
    agentHandler (strayPayloadGen "Use ".data 'd' "ocumentclass here".data) sampleDoc =
      ⟨200, some true, none,
        some (.str ⟨"Use ".data ++ ('\\' :: 'd' :: "ocumentclass here".data)⟩), none,
        some (.str ⟨"Use ".data ++ ('\\' :: 'd' :: "ocumentclass here".data)⟩)⟩ :=
  c5_nonescape_backslash_repaired "Use ".data "ocumentclass here".data 'd' sampleDoc
    (by decide) (by decide) (by decide) (by decide) (by decide) (by decide) (by decide)
    (by decide) (by decide) (by decide) (by decide) (by decide) (by decide) (by decide)

end ResumeForge
